import Mathlib

/-!
Shallow embedding of `upload-to-moodle.py` (MTAT publishing pipeline) and
proofs about it.  Pure helpers of the script become Lean functions; the
HTTP/file-system/markdown-library boundaries become oracle parameters, and
the script's control flow over them is reproduced faithfully.  Machine-level
details (actual sockets, regex engine internals) live behind those oracles;
every branch and data transformation of the Python source is modelled.
-/

namespace MTAT

/-! ### Python string primitives (ASCII model)

`str.lstrip` / `str.strip` remove the ASCII whitespace characters,
`str.find(sub, start)` returns the least index `>= start` at which `sub`
occurs, `str.title()` uppercases every letter that follows a non-letter and
lowercases the rest.  Strings are modelled through their character lists. -/

def pySpace (c : Char) : Bool :=
  c == ' ' || c == '\t' || c == '\n' || c == '\r' || c == '\x0b' || c == '\x0c'

def pyLstripChars (l : List Char) : List Char := l.dropWhile pySpace

def pyStrip (s : String) : String :=
  (((s.toList.dropWhile pySpace).reverse.dropWhile pySpace).reverse).asString

/-- Core of `str.find`: least index (counting from `i`) where `pat` occurs in
the remaining list; `none` when it does not occur. -/
def findSubAux (pat : List Char) : List Char → Nat → Option Nat
  | [], i => if pat = [] then some i else none
  | c :: rest, i =>
    if (c :: rest).take pat.length = pat then some i else findSubAux pat rest (i + 1)

/-- Python `hay.find(pat, start)` (with `none` for `-1`). -/
def pyFind (hay pat : List Char) (start : Nat) : Option Nat :=
  findSubAux pat (hay.drop start) start

/-- Python `str.title()` on ASCII text: a letter is uppercased when the
previous character is not a letter, lowercased otherwise. -/
def pyTitleAux : Bool → List Char → List Char
  | _, [] => []
  | prev, c :: cs =>
    if c.isAlpha then
      (if prev then c.toLower else c.toUpper) :: pyTitleAux true cs
    else
      c :: pyTitleAux false cs

def pyTitle (s : String) : String := (pyTitleAux false s.toList).asString

/-! ### Content transform: `strip_front_matter` (source lines 237-243)

    if text.startswith("---"):
        end = text.find("\n---", 3)
        if end != -1:
            return text[end + 4:].lstrip()
    return text
-/

def fmClose : List Char := ['\n', '-', '-', '-']

def stripFMList (l : List Char) : List Char :=
  if l.take 3 = ['-', '-', '-'] then
    match pyFind l fmClose 3 with
    | some e => pyLstripChars (l.drop (e + 4))
    | none => l
  else l

def strip_front_matter (text : String) : String := (stripFMList text.toList).asString

/-- The text has a closing front-matter fence starting at index `j`. -/
def closingFenceAt (s : String) (j : Nat) : Prop :=
  (s.toList.drop j).take fmClose.length = fmClose

instance (s : String) (j : Nat) : Decidable (closingFenceAt s j) := by
  unfold closingFenceAt; infer_instance

/-- The text begins with an opening fence and has some closing fence at an
offset at least 3 (the condition under which `strip_front_matter` cuts). -/
def beginsWithFrontMatter (s : String) : Prop :=
  s.toList.take 3 = ['-', '-', '-'] ∧ pyFind s.toList fmClose 3 ≠ none

instance (s : String) : Decidable (beginsWithFrontMatter s) := by
  unfold beginsWithFrontMatter; infer_instance

/-! ### JSON values (decoded REST response bodies) -/

inductive Json where
  | null
  | bool (b : Bool)
  | num (n : Int)
  | str (s : String)
  | arr (xs : List Json)
  | obj (kvs : List (String × Json))

/-- First-match association lookup (JSON-decoded Python dicts have unique
string keys; insertion order is preserved). -/
def jlook (kvs : List (String × Json)) (k : String) : Option Json :=
  match kvs with
  | [] => none
  | p :: rest => if p.1 = k then some p.2 else jlook rest k

def Json.isDict : Json → Bool
  | .obj _ => true
  | _ => false

def Json.hasKey : Json → String → Bool
  | .obj kvs, k => kvs.any (fun p => p.1 == k)
  | _, _ => false

/-- Python `d.get(k, default)`; call sites guard with `isDict`. -/
def Json.getD : Json → String → Json → Json
  | .obj kvs, k, d => (jlook kvs k).getD d
  | _, _, d => d

/-- Python truthiness of a decoded JSON value. -/
def Json.pyTruthy : Json → Bool
  | .null => false
  | .bool b => b
  | .num n => n != 0
  | .str s => s != ""
  | .arr xs => !xs.isEmpty
  | .obj kvs => !kvs.isEmpty

/-- Rendering used by f-string interpolation in progress prints (the
composite cases are never interpolated by any claim). -/
def Json.pyStr : Json → String
  | .null => "None"
  | .bool true => "True"
  | .bool false => "False"
  | .num n => toString n
  | .str s => s
  | .arr _ => "<list>"
  | .obj _ => "<dict>"

/-! ### Python-level exceptions raised by the script -/

/-- The server-signalled REST failure: `RuntimeError` raised by `api` with
the function name and `data.get("message", data)`. -/
structure ApiError where
  wsfunction : String
  message : Json

inductive PyExc where
  | apiError (e : ApiError)
  | attrError
  | typeError
  | keyError (k : String)
  | indexError

/-! ### REST helper `api` (source lines 59-75)

The transport (HTTP POST + `raise_for_status` + JSON decode) is an oracle
`RestOracle`; `apiCheck` is the decoded-response handling of the source:

    data = resp.json()
    if isinstance(data, dict) and "exception" in data:
        raise RuntimeError(f"Moodle API error [...]: ...")
    return data
-/

abbrev RestOracle := String → String → List (String × Json) → Json

/-- The form fields posted by `api` (wstoken/format/function plus params). -/
def apiData (token fn : String) (params : List (String × Json)) : List (String × Json) :=
  [("wstoken", Json.str token), ("moodlewsrestformat", Json.str "json"),
   ("wsfunction", Json.str fn)] ++ params

/-- Domain-failure check applied to the decoded JSON response. -/
def apiCheck (fn : String) (data : Json) : Except ApiError Json :=
  if data.isDict && data.hasKey "exception" then
    .error ⟨fn, data.getD "message" data⟩
  else
    .ok data

def api (resp : RestOracle) (url token fn : String) (params : List (String × Json)) :
    Except ApiError Json :=
  apiCheck fn (resp url fn (apiData token fn params))

def liftApi : Except ApiError Json → Except PyExc Json
  | .ok j => .ok j
  | .error e => .error (.apiError e)

/-- Python `x.get(k, d)` as an expression that can raise (`AttributeError`
when `x` is not a dict). -/
def pyGetD (j : Json) (k : String) (d : Json) : Except PyExc Json :=
  match j with
  | .obj kvs => .ok ((jlook kvs k).getD d)
  | _ => .error .attrError

/-- Python `x[0]` on a decoded JSON value. -/
def jIndex0 : Json → Except PyExc Json
  | .arr (x :: _) => .ok x
  | .arr [] => .error .indexError
  | .str s =>
    match s.toList with
    | c :: _ => .ok (.str (String.mk [c]))
    | [] => .error .indexError
  | .obj _ => .error (.keyError "0")
  | _ => .error .typeError

/-- Python `x[k]` for a string key `k`. -/
def jIndexS (j : Json) (k : String) : Except PyExc Json :=
  match j with
  | .obj kvs =>
    match jlook kvs k with
    | some v => .ok v
    | none => .error (.keyError k)
  | _ => .error .typeError

/-! ### `ensure_course` (source lines 203-226) -/

/-- One REST call issued by the reconciler, as recorded in traces. -/
structure ApiCallRec where
  wsfunction : String
  params : List (String × Json)

def CATEGORY_ID : Int := 1

def lookupParamsOf (course_id : String) : List (String × Json) :=
  [("field", Json.str "idnumber"), ("value", Json.str course_id)]

def courseCreateParams (course_id course_title : String) : List (String × Json) :=
  [("courses[0][fullname]", Json.str course_title),
   ("courses[0][shortname]", Json.str (course_id.take 100)),
   ("courses[0][idnumber]", Json.str course_id),
   ("courses[0][categoryid]", Json.num CATEGORY_ID),
   ("courses[0][summary]", Json.str "Auto-generated by MTAT upload script."),
   ("courses[0][summaryformat]", Json.num 1),
   ("courses[0][format]", Json.str "topics"),
   ("courses[0][visible]", Json.num 1)]

/-- Return Moodle internal course id, creating the course if it does not
exist.  Result: the returned id (or the uncaught exception), the REST calls
issued (in order), and the progress prints. -/
def ensure_course (resp : RestOracle) (url token course_id course_title : String) :
    Except PyExc Json × List ApiCallRec × List String :=
  let lookupRec : ApiCallRec := ⟨"core_course_get_courses_by_field", lookupParamsOf course_id⟩
  match liftApi (api resp url token "core_course_get_courses_by_field" (lookupParamsOf course_id)) with
  | .error e => (.error e, [lookupRec], [])
  | .ok existing =>
    match pyGetD existing "courses" (Json.arr []) with
    | .error e => (.error e, [lookupRec], [])
    | .ok courses =>
      if courses.pyTruthy then
        match (jIndex0 courses >>= fun c0 => jIndexS c0 "id") with
        | .error e => (.error e, [lookupRec], [])
        | .ok mid =>
          (.ok mid, [lookupRec],
           ["  Course already exists (id=" ++ mid.pyStr ++ "): " ++ course_title])
      else
        let createRec : ApiCallRec :=
          ⟨"core_course_create_courses", courseCreateParams course_id course_title⟩
        match liftApi (api resp url token "core_course_create_courses"
            (courseCreateParams course_id course_title)) with
        | .error e => (.error e, [lookupRec, createRec], [])
        | .ok created =>
          match (jIndex0 created >>= fun c0 => jIndexS c0 "id") with
          | .error e => (.error e, [lookupRec, createRec], [])
          | .ok mid =>
            (.ok mid, [lookupRec, createRec],
             ["  Created course (id=" ++ mid.pyStr ++ "): " ++ course_title])

def isCreateCall (c : ApiCallRec) : Bool := c.wsfunction == "core_course_create_courses"

/-! ### Ledger entries

A manifest entry is a YAML mapping; the upload script reads the keys below
with `.get` (absent keys yield `None`, modelled by `Option`) except
`output_file`, which is accessed by subscript on every processed entry.
The generation-side provenance fields (`generated_at`, `model`, token usage
counts) are never read by the upload script and are not modelled. -/

structure Entry where
  course_id : Option String
  module_id : Option String
  module_path : Option String
  audience : Option String
  locale : Option String
  output_file : String
deriving DecidableEq, Repr

/-- Model of `pathlib` path joining with `/` (abstract path algebra). -/
def pathJoin (a b : String) : String := a ++ "/" ++ b

/-! ### Page creation via the scraped browser session
(`_create_page_resource`, source lines 279-332) -/

inductive WebEvent where
  | newSession
  | getLoginPage
  | postLogin (username password logintoken : String)
  | getAddPageForm (course : Json)
  | postCreatePage (course : Json) (sesskey title intro htmlContent : String)

/-- Boundary oracle for the cookie-session path: served HTML bodies and the
two `re.search` scrapes (group 1 of the match, `none` when no match). -/
structure WebOracle where
  loginPageHtml : String
  addPageHtml : Json → String
  scrapeLoginField : String → Option String
  scrapeSesskey : String → Option String

/-- Create a Moodle Page resource via a session-authenticated form POST.
Returns the ordered web-session events the call performs.  Note the source
opens a fresh `requests.Session()` and logs in on every call. -/
def create_page_resource (w : WebOracle) (course_id : Json)
    (title html_content username password : String) : List WebEvent :=
  let logintoken := (w.scrapeLoginField w.loginPageHtml).getD ""
  let sesskey := (w.scrapeSesskey (w.addPageHtml course_id)).getD ""
  [WebEvent.newSession, WebEvent.getLoginPage,
   WebEvent.postLogin username password logintoken,
   WebEvent.getAddPageForm course_id,
   WebEvent.postCreatePage course_id sesskey title "" html_content]

def isNewSession : WebEvent → Bool
  | .newSession => true
  | _ => false

def isPostLogin : WebEvent → Bool
  | .postLogin _ _ _ => true
  | _ => false

def isPostCreatePage : WebEvent → Bool
  | .postCreatePage _ _ _ _ _ => true
  | _ => false

def postedTitles (tr : List WebEvent) : List String :=
  tr.filterMap fun e =>
    match e with
    | .postCreatePage _ _ t _ _ => some t
    | _ => none

/-! ### `upload_variants_to_book` (source lines 246-276) -/

def pageTitleOf (module_title : String) (v : Entry) : String :=
  module_title ++ " [" ++ v.audience.getD "unknown" ++ " / " ++ v.locale.getD "en-US" ++ "]"

def variantPath (manifest_dir : String) (v : Entry) : String :=
  pathJoin manifest_dir v.output_file

def skipWarning (path : String) : String :=
  "    [!] Variant file not found, skipping: " ++ path

/-- One iteration of the per-variant loop of `upload_variants_to_book`:
skip-with-warning when the file is absent, otherwise strip front matter,
convert to HTML and create the page. -/
def uploadStep (w : WebOracle) (fs : String → Option String) (md : String → String)
    (course_moodle_id : Json) (module_title : String) (manifest_dir : String)
    (username password : String) (acc : List WebEvent × List String) (v : Entry) :
    List WebEvent × List String :=
  let vp := variantPath manifest_dir v
  match fs vp with
  | none => (acc.1, acc.2 ++ [skipWarning vp])
  | some raw =>
    let body := strip_front_matter raw
    let html := md body
    let pt := pageTitleOf module_title v
    (acc.1 ++ create_page_resource w course_moodle_id pt html username password,
     acc.2 ++ ["    + Uploaded: " ++ pt])

/-- For a given module, upload one Page resource per audience variant.
`fs` maps a path to the file's contents when the file exists; `md` is the
markdown-to-HTML library conversion.  Returns (web events, prints). -/
def upload_variants_to_book (w : WebOracle) (fs : String → Option String)
    (md : String → String) (url : String) (course_moodle_id : Json)
    (module_title : String) (variants : List Entry) (manifest_dir : String)
    (username password : String) : List WebEvent × List String :=
  let init : List WebEvent × List String :=
    ([], ["\n  Module: " ++ module_title ++ " (" ++ toString variants.length ++ " variants)"])
  let res := variants.foldl
    (uploadStep w fs md course_moodle_id module_title manifest_dir username password) init
  (res.1,
   res.2 ++ ["  Done. Open your course at: " ++ url ++ "/course/view.php?id="
     ++ course_moodle_id.pyStr])

/-! ### Ledger grouping (`group_by_course`, source lines 350-365) -/

structure CourseGroup where
  title : String
  modules : List (String × List Entry)
deriving DecidableEq, Repr

/-- Fallback sentinel course key for entries lacking a course identifier. -/
def fallbackCourseKey : String := "mtat-preview"

def courseKeyOf (e : Entry) : String := e.course_id.getD fallbackCourseKey

def moduleKeyOf (e : Entry) : String := e.module_id.getD (e.module_path.getD "unknown")

/-- Default display label: `course_id.replace("-", " ").title()`. -/
def deriveCourseTitle (k : String) : String :=
  pyTitle ((k.toList.map (fun c => if c = '-' then ' ' else c)).asString)

/-- `modules.setdefault(mod_id, []).append(entry)` on an insertion-ordered
association list. -/
def addToModules (ms : List (String × List Entry)) (k : String) (e : Entry) :
    List (String × List Entry) :=
  if ms.any (fun m => m.1 == k) then
    ms.map (fun m => if m.1 = k then (m.1, m.2 ++ [e]) else m)
  else
    ms ++ [(k, [e])]

def addEntry (courses : List (String × CourseGroup)) (e : Entry) :
    List (String × CourseGroup) :=
  let key := courseKeyOf e
  let courses' :=
    if courses.any (fun kc => kc.1 == key) then courses
    else courses ++ [(key, ⟨deriveCourseTitle key, []⟩)]
  courses'.map (fun kc =>
    if kc.1 = key then (kc.1, ⟨kc.2.title, addToModules kc.2.modules (moduleKeyOf e) e⟩)
    else kc)

/-- Returns the insertion-ordered `course_id -> (title, modules)` grouping. -/
def group_by_course (entries : List Entry) : List (String × CourseGroup) :=
  entries.foldl addEntry []

/-! ### CLI arguments and the world of external effects -/

structure Args where
  url : String
  token : Option String
  user : String
  password : String
  course_id : Option String
  manifest : String
  setup_moodle : Bool
  get_token : Bool

/-- Python truthiness of the `token` variable (`None` or a string). -/
def pyTruthyStrOpt : Option String → Bool
  | none => false
  | some s => s != ""

/-- External state and boundary behaviour for one invocation:
* `resp` — decoded REST responses;
* `web` — the browser-session boundary;
* `fs` — variant file contents by path (`none` = file absent);
* `md` — the markdown library;
* `cacheFile` — contents of `.moodle-token` (`none` = absent);
* `mint` — outcome of `wait_for_moodle` + `setup_moodle_webservices`
  (`error` = readiness timeout or docker-exec failure, uncaught);
* `manifestData` — `none` = manifest file absent; `some none` = file parses
  to null or a non-list; `some (some es)` = parses to the entry list `es`;
* `metaTitle` — per metadata.yaml path: `none` = file absent, `some none` =
  mapping without a `title` key, `some (some t)` = declares title `t`;
* `manifestDir` — `manifest_path.parent.parent`. -/
structure World where
  resp : RestOracle
  web : WebOracle
  fs : String → Option String
  md : String → String
  cacheFile : Option String
  mint : Except String String
  manifestData : Option (Option (List Entry))
  metaTitle : String → Option (Option String)
  manifestDir : String

/-- Events of one invocation, in order.  `pollLogin` stands for the
readiness poll of `wait_for_moodle` (its repetition is collapsed),
`execMint` for the docker-exec provisioning channel. -/
inductive Event where
  | rest (url wsfunction : String) (data : List (String × Json))
  | web (e : WebEvent)
  | pollLogin (url : String)
  | execMint
  | cacheRead
  | cacheWrite (tok : String)

def isCacheReadEvent : Event → Bool
  | .cacheRead => true
  | _ => false

def isMintAttemptEvent : Event → Bool
  | .pollLogin _ => true
  | .execMint => true
  | _ => false

/-- Events that are neither REST calls nor browser-session traffic. -/
def nonPipeEvent : Event → Bool
  | .rest _ _ _ => false
  | .web _ => false
  | _ => true

/-- Network events (REST, browser session, readiness poll) as opposed to
local file/exec effects. -/
def isNetworkEvent : Event → Bool
  | .rest _ _ _ => true
  | .web _ => true
  | .pollLogin _ => true
  | _ => false

/-! ### Token resolution (source lines 390-400)

    token = args.token
    if not token and TOKEN_CACHE_FILE.exists():
        token = TOKEN_CACHE_FILE.read_text().strip()
    if not token or args.setup_moodle:
        wait_for_moodle(args.url)
        token = setup_moodle_webservices()
        TOKEN_CACHE_FILE.write_text(token)
-/

/-- Result: `error` = crash while provisioning (with events/prints so far);
`ok` = resolved token plus events and prints. -/
def resolveTokenStep (args : Args) (w : World) :
    Except (List Event × List String) (Option String × List Event × List String) :=
  let t0 := args.token
  let readCache := !pyTruthyStrOpt t0 && w.cacheFile.isSome
  let t1 := if readCache then w.cacheFile.map pyStrip else t0
  let ev1 : List Event := if readCache then [Event.cacheRead] else []
  if !pyTruthyStrOpt t1 || args.setup_moodle then
    match w.mint with
    | .error _ => .error (ev1 ++ [Event.pollLogin args.url, Event.execMint], [])
    | .ok tok =>
      .ok (some tok,
           ev1 ++ [Event.pollLogin args.url, Event.execMint, Event.cacheWrite tok],
           ["Token cached to .moodle-token"])
  else
    .ok (t1, ev1, [])

/-! ### `main` (source lines 368-451) -/

structure RunSt where
  events : List Event
  prints : List String
  crashed : Bool

/-- Module title resolution (source lines 436-443): opportunistic
metadata.yaml lookup, falling back to the module id. -/
def moduleTitleOf (w : World) (module_id : String) (variants : List Entry) : String :=
  match variants with
  | [] => module_id
  | v :: _ =>
    match w.metaTitle (pathJoin (pathJoin w.manifestDir (v.module_path.getD "")) "metadata.yaml") with
    | some (some t) => t
    | _ => module_id

/-- One iteration of the per-module loop inside the course loop: resolve a
display title, then upload every variant of the module. -/
def stepModule (args : Args) (w : World) (mid : Json) (st2 : RunSt)
    (mv : String × List Entry) : RunSt :=
  let mtitle := moduleTitleOf w mv.1 mv.2
  let up := upload_variants_to_book w.web w.fs w.md args.url mid mtitle mv.2
    w.manifestDir args.user args.password
  ⟨st2.events ++ up.1.map Event.web, st2.prints ++ up.2, st2.crashed⟩

/-- One iteration of the per-course loop: `ensure_course`, then the
per-module uploads.  `crashed` marks an uncaught exception; later
iterations never run after a crash. -/
def stepCourse (args : Args) (w : World) (token : String) (st : RunSt)
    (kd : String × CourseGroup) : RunSt :=
  if st.crashed then st
  else
    let ec := ensure_course w.resp args.url token kd.1 kd.2.title
    let evs := st.events ++
      ec.2.1.map (fun c => Event.rest args.url c.wsfunction (apiData token c.wsfunction c.params))
    let prs := st.prints ++ ["Course: " ++ kd.2.title ++ " (" ++ kd.1 ++ ")"] ++ ec.2.2
    match ec.1 with
    | .error _ => ⟨evs, prs, true⟩
    | .ok mid => kd.2.modules.foldl (stepModule args w mid) ⟨evs, prs, false⟩

/-- Remediation guidance printed when the ledger file is absent
(`load_manifest`, source lines 340-347). -/
def manifestGuidance (manifest : String) : List String :=
  ["No manifest found at " ++ manifest ++ ".",
   "Generate variants first: python generate-variant.py --module example-course/01-concept --audience developer"]

structure RunResult where
  exitCode : Nat
  crashed : Bool
  events : List Event
  prints : List String

/-- The whole invocation: token resolution, `--get-token` early exit, token
validation, manifest loading, course filtering, grouping, reconciliation. -/
def main_run (args : Args) (w : World) : RunResult :=
  match resolveTokenStep args w with
  | .error (evs, prs) => ⟨1, true, evs, prs⟩
  | .ok (tokOpt, evs, prs) =>
    let token := tokOpt.getD ""
    if args.get_token then ⟨0, false, evs, prs ++ [token]⟩
    else
      let valEvent := Event.rest args.url "core_webservice_get_site_info"
        (apiData token "core_webservice_get_site_info" [])
      let evs := evs ++ [valEvent]
      match api w.resp args.url token "core_webservice_get_site_info" [] with
      | .error _ =>
        ⟨1, false, evs,
         prs ++ ["Token validation failed.",
                 "Try running with --setup-moodle to regenerate the token."]⟩
      | .ok site =>
        if site.isDict then
          let prs := prs ++ ["Connected to Moodle: " ++ (site.getD "sitename" Json.null).pyStr
            ++ " (Moodle " ++ (site.getD "release" (Json.str "?")).pyStr ++ ")"]
          match w.manifestData with
          | none => ⟨1, false, evs, prs ++ manifestGuidance args.manifest⟩
          | some parsed =>
            let entries := parsed.getD []
            if entries.isEmpty then
              ⟨0, false, evs, prs ++ ["Manifest is empty — nothing to upload."]⟩
            else
              let entries2 := if pyTruthyStrOpt args.course_id then
                  entries.filter (fun e => e.course_id == args.course_id)
                else entries
              if pyTruthyStrOpt args.course_id && entries2.isEmpty then
                ⟨1, false, evs,
                 prs ++ ["No variants found for course_id=" ++ args.course_id.getD ""]⟩
              else
                let courses := group_by_course entries2
                let prs := prs ++ ["\nUploading " ++ toString entries2.length
                  ++ " variant(s) across " ++ toString courses.length ++ " course(s)...\n"]
                let st := courses.foldl (stepCourse args w token) ⟨evs, prs, false⟩
                if st.crashed then ⟨1, true, st.events, st.prints⟩
                else ⟨0, false, st.events,
                      st.prints ++ ["\nAll done.",
                        "Open Moodle: " ++ args.url ++ "/my/courses.php"]⟩
        else
          -- `site.get(...)` inside the try-block raises AttributeError on a
          -- non-dict response; the except-handler exits 1.
          ⟨1, false, evs,
           prs ++ ["Token validation failed.",
                   "Try running with --setup-moodle to regenerate the token."]⟩

end MTAT

namespace MTAT

/-! ### Lemmas about `pyFind` -/

theorem findSubAux_shift (pat l : List Char) :
    ∀ i, findSubAux pat l i = (findSubAux pat l 0).map (· + i) := by
  induction l with
  | nil =>
    intro i
    by_cases hp : pat = [] <;> simp [findSubAux, hp]
  | cons c rest ih =>
    intro i
    by_cases h : (c :: rest).take pat.length = pat
    · simp [findSubAux, h]
    · simp only [findSubAux, if_neg h]
      rw [ih (i + 1), ih 1]
      cases findSubAux pat rest 0
      · simp
      · simp; omega

theorem findSubAux_some (pat l : List Char) (hp : pat ≠ []) (e : Nat)
    (h : findSubAux pat l 0 = some e) :
    (l.drop e).take pat.length = pat ∧ ∀ j, j < e → (l.drop j).take pat.length ≠ pat := by
  induction l generalizing e with
  | nil =>
    simp [findSubAux, hp] at h
  | cons c rest ih =>
    by_cases hocc : (c :: rest).take pat.length = pat
    · simp [findSubAux, hocc] at h
      subst h
      exact ⟨hocc, fun j hj => absurd hj (Nat.not_lt_zero j)⟩
    · simp only [findSubAux, if_neg hocc] at h
      rw [findSubAux_shift pat rest 1] at h
      cases h' : findSubAux pat rest 0 with
      | none => rw [h'] at h; simp at h
      | some e' =>
        rw [h'] at h
        simp at h
        subst h
        obtain ⟨h1, h2⟩ := ih e' h'
        refine ⟨by simpa using h1, ?_⟩
        intro j hj
        cases j with
        | zero => simpa using hocc
        | succ j' =>
          have : j' < e' := by omega
          simpa using h2 j' this

theorem findSubAux_none (pat l : List Char) (hp : pat ≠ [])
    (h : findSubAux pat l 0 = none) :
    ∀ j, (l.drop j).take pat.length ≠ pat := by
  induction l with
  | nil =>
    intro j
    simp only [List.drop_nil, List.take_nil]
    exact fun hc => hp hc.symm
  | cons c rest ih =>
    by_cases hocc : (c :: rest).take pat.length = pat
    · simp [findSubAux, hocc] at h
    · simp only [findSubAux, if_neg hocc] at h
      rw [findSubAux_shift pat rest 1] at h
      cases h' : findSubAux pat rest 0 with
      | none =>
        intro j
        cases j with
        | zero => simpa using hocc
        | succ j' => simpa using ih h' j'
      | some e' => rw [h'] at h; simp at h

theorem pyFind_some (hay pat : List Char) (start e : Nat) (hp : pat ≠ [])
    (h : pyFind hay pat start = some e) :
    start ≤ e ∧ (hay.drop e).take pat.length = pat ∧
      ∀ j, start ≤ j → j < e → (hay.drop j).take pat.length ≠ pat := by
  unfold pyFind at h
  rw [findSubAux_shift pat (hay.drop start) start] at h
  cases h' : findSubAux pat (hay.drop start) 0 with
  | none => rw [h'] at h; simp at h
  | some e0 =>
    rw [h'] at h
    simp at h
    obtain ⟨h1, h2⟩ := findSubAux_some pat (hay.drop start) hp e0 h'
    rw [List.drop_drop] at h1
    refine ⟨by omega, ?_, ?_⟩
    · rw [show e = start + e0 by omega]; exact h1
    · intro j hj1 hj2
      have hj3 : j - start < e0 := by omega
      have := h2 (j - start) hj3
      rw [List.drop_drop] at this
      rw [show start + (j - start) = j by omega] at this
      exact this

theorem pyFind_none (hay pat : List Char) (start : Nat) (hp : pat ≠ [])
    (h : pyFind hay pat start = none) :
    ∀ j, start ≤ j → (hay.drop j).take pat.length ≠ pat := by
  unfold pyFind at h
  rw [findSubAux_shift pat (hay.drop start) start] at h
  cases h' : findSubAux pat (hay.drop start) 0 with
  | some e0 => rw [h'] at h; simp at h
  | none =>
    intro j hj
    have := findSubAux_none pat (hay.drop start) hp h' (j - start)
    rw [List.drop_drop, show start + (j - start) = j by omega] at this
    exact this

end MTAT

namespace MTAT

/-! ### Characterisation of `strip_front_matter` -/

theorem asString_toList (s : String) : s.toList.asString = s := by
  cases s
  rfl

theorem fmClose_ne_nil : fmClose ≠ [] := by decide

theorem strip_of_no_lead (s : String) (h : s.toList.take 3 ≠ ['-', '-', '-']) :
    strip_front_matter s = s := by
  unfold strip_front_matter stripFMList
  rw [if_neg h]
  exact asString_toList s

theorem strip_of_first_fence (s : String) (e : Nat)
    (h3 : s.toList.take 3 = ['-', '-', '-']) (he : 3 ≤ e)
    (hf : closingFenceAt s e)
    (hmin : ∀ j, j < e → 3 ≤ j → ¬ closingFenceAt s j) :
    strip_front_matter s = ((s.toList.drop (e + 4)).dropWhile pySpace).asString := by
  have hfind : pyFind s.toList fmClose 3 = some e := by
    cases hfind : pyFind s.toList fmClose 3 with
    | none => exact absurd hf (pyFind_none s.toList fmClose 3 fmClose_ne_nil hfind e he)
    | some e' =>
      obtain ⟨h1, h2, h3'⟩ := pyFind_some s.toList fmClose 3 e' fmClose_ne_nil hfind
      rcases Nat.lt_trichotomy e' e with hlt | heq | hgt
      · exact absurd h2 (hmin e' hlt h1)
      · rw [heq]
      · exact absurd hf (h3' e he hgt)
  unfold strip_front_matter stripFMList
  rw [if_pos h3, hfind]
  rfl

theorem strip_of_no_fence (s : String)
    (hnone : ∀ j, j < s.toList.length → 3 ≤ j → ¬ closingFenceAt s j) :
    strip_front_matter s = s := by
  by_cases h3 : s.toList.take 3 = ['-', '-', '-']
  · have hfind : pyFind s.toList fmClose 3 = none := by
      cases hfind : pyFind s.toList fmClose 3 with
      | none => rfl
      | some e =>
        obtain ⟨h1, h2, _⟩ := pyFind_some s.toList fmClose 3 e fmClose_ne_nil hfind
        by_cases hlen : e < s.toList.length
        · exact absurd h2 (hnone e hlen h1)
        · rw [List.drop_eq_nil_of_le (by omega)] at h2
          simp [fmClose] at h2
    unfold strip_front_matter stripFMList
    rw [if_pos h3, hfind]
    exact asString_toList s
  · exact strip_of_no_lead s h3

theorem strip_id_of_not_fm (s : String) (h : ¬ beginsWithFrontMatter s) :
    strip_front_matter s = s := by
  by_cases h3 : s.toList.take 3 = ['-', '-', '-']
  · have hfind : pyFind s.toList fmClose 3 = none := by
      cases hfind : pyFind s.toList fmClose 3 with
      | none => rfl
      | some e => exact absurd ⟨h3, by rw [hfind]; exact fun hc => Option.noConfusion hc⟩ h
    unfold strip_front_matter stripFMList
    rw [if_pos h3, hfind]
    exact asString_toList s
  · exact strip_of_no_lead s h3

/-- C7: `strip_front_matter`, when the text begins with a front-matter
fence, returns everything after the first closing fence, left-trimmed, and
returns the text unchanged when there is no leading fence; on the input
`"---\nid: x\n---\n\nBody"` it yields exactly `"Body"`. -/
theorem c7_strip_front_matter_first_fence :
    strip_front_matter "---\nid: x\n---\n\nBody" = "Body"
  ∧ (∀ s : String, s.toList.take 3 ≠ ['-', '-', '-'] → strip_front_matter s = s)
  ∧ (∀ (s : String) (e : Nat), s.toList.take 3 = ['-', '-', '-'] → 3 ≤ e →
      closingFenceAt s e → (∀ j, j < e → 3 ≤ j → ¬ closingFenceAt s j) →
      strip_front_matter s = ((s.toList.drop (e + 4)).dropWhile pySpace).asString) :=
  ⟨by decide, strip_of_no_lead, strip_of_first_fence⟩

/-- Witness for C7: a text with no leading fence is unchanged, and a text
whose first closing fence is at index 5 is cut there and left-trimmed. -/
theorem c7_witness :
    strip_front_matter "abc" = "abc"
  ∧ strip_front_matter "---\nx\n---\nB"
      = ((("---\nx\n---\nB" : String).toList.drop 9).dropWhile pySpace).asString :=
  ⟨c7_strip_front_matter_first_fence.2.1 "abc" (by decide),
   c7_strip_front_matter_first_fence.2.2 "---\nx\n---\nB" 5 (by decide) (by decide)
     (by decide) (by decide)⟩

/-- C8 counterexample: `strip_front_matter` is not idempotent on every
string — when the stripped body itself begins with a terminated fence
block, a second application strips again. -/
theorem c8_counterexample :
    strip_front_matter (strip_front_matter "---\n---\n---\n---")
      ≠ strip_front_matter "---\n---\n---\n---" := by decide

/-- C8 (amended): `strip_front_matter` is idempotent on every input whose
stripped result does not itself begin with a front-matter fence that has a
closing fence (in particular on all ordinary already-stripped bodies). -/
theorem c8_strip_front_matter_idempotent (x : String)
    (h : ¬ beginsWithFrontMatter (strip_front_matter x)) :
    strip_front_matter (strip_front_matter x) = strip_front_matter x :=
  strip_id_of_not_fm (strip_front_matter x) h

/-- Witness for C8: the motivating concrete instance of the amended claim. -/
theorem c8_witness :
    ¬ beginsWithFrontMatter (strip_front_matter "---\nid: x\n---\n\nBody")
  ∧ strip_front_matter (strip_front_matter "---\nid: x\n---\n\nBody")
      = strip_front_matter "---\nid: x\n---\n\nBody" :=
  ⟨by decide, c8_strip_front_matter_idempotent "---\nid: x\n---\n\nBody" (by decide)⟩

/-- C10: an input starting with the opening fence but containing no closing
fence `"\n---"` at any offset at least 3 is returned completely
unchanged. -/
theorem c10_unterminated_front_matter_noop (s : String)
    (_h3 : s.toList.take 3 = ['-', '-', '-'])
    (hnone : ∀ j, j < s.toList.length → 3 ≤ j → ¬ closingFenceAt s j) :
    strip_front_matter s = s :=
  strip_of_no_fence s hnone

/-- Witness for C10: an unterminated front-matter block is left intact. -/
theorem c10_witness : strip_front_matter "---abc" = "---abc" :=
  c10_unterminated_front_matter_noop "---abc" (by decide) (by decide)

end MTAT

namespace MTAT

/-! ### REST-helper and reconciler claims -/

/-- C6: the REST call helper raises a domain error carrying the
server-reported message if and only if the decoded JSON response is a
mapping containing an `exception` key (after HTTP success); any other
decoded response is returned to the caller unchanged. -/
theorem c6_api_domain_error (fn : String) (data : Json) :
    ((∃ e, apiCheck fn data = Except.error e)
        ↔ (data.isDict = true ∧ data.hasKey "exception" = true))
  ∧ (∀ e, apiCheck fn data = Except.error e → e = ⟨fn, data.getD "message" data⟩)
  ∧ (¬ (data.isDict = true ∧ data.hasKey "exception" = true)
        → apiCheck fn data = Except.ok data) := by
  by_cases h : (data.isDict && data.hasKey "exception") = true
  · have h' := h
    rw [Bool.and_eq_true] at h'
    refine ⟨⟨fun _ => h', fun _ => ⟨⟨fn, data.getD "message" data⟩, by simp [apiCheck, h]⟩⟩,
      ?_, fun hc => absurd h' hc⟩
    intro e he
    simp [apiCheck, h] at he
    exact he.symm
  · have h' : ¬ (data.isDict = true ∧ data.hasKey "exception" = true) := by
      rw [← Bool.and_eq_true]; exact h
    refine ⟨⟨?_, fun hc => absurd hc h'⟩, ?_, fun _ => by simp [apiCheck, h]⟩
    · rintro ⟨e, he⟩
      simp [apiCheck, h] at he
    · intro e he
      simp [apiCheck, h] at he

/-- Witness for C6: a mapping bearing `exception` raises the domain error
carrying its `message`; a non-mapping response passes through unchanged. -/
theorem c6_witness :
    apiCheck "core_course_create_courses"
        (Json.obj [("exception", Json.str "moodle_exception"), ("message", Json.str "boom")])
      = Except.error ⟨"core_course_create_courses", Json.str "boom"⟩
  ∧ apiCheck "core_course_create_courses" (Json.arr [Json.num 3])
      = Except.ok (Json.arr [Json.num 3]) := by
  constructor
  · obtain ⟨e, he⟩ := (c6_api_domain_error "core_course_create_courses"
      (Json.obj [("exception", Json.str "moodle_exception"), ("message", Json.str "boom")])).1.mpr
      ⟨rfl, rfl⟩
    have hv := (c6_api_domain_error "core_course_create_courses"
      (Json.obj [("exception", Json.str "moodle_exception"), ("message", Json.str "boom")])).2.1 e he
    rw [hv] at he
    exact he
  · exact (c6_api_domain_error "core_course_create_courses" (Json.arr [Json.num 3])).2.2
      (by simp [Json.isDict])

/-- C1: `ensure_course` is idempotent on the course's `idnumber` key.  When
the remote lookup returns a non-empty `courses` list, no creation call is
issued and the existing remote id is returned unchanged; when it returns an
empty list, exactly one creation call is issued and the id echoed by that
call is returned. -/
theorem c1_ensure_course_idempotent (resp : RestOracle) (url token cid title : String) :
    (∀ (kvs : List (String × Json)) (c0 : Json) (rest : List Json) (v : Json),
      resp url "core_course_get_courses_by_field"
          (apiData token "core_course_get_courses_by_field" (lookupParamsOf cid))
        = Json.obj kvs →
      (Json.obj kvs).hasKey "exception" = false →
      (Json.obj kvs).getD "courses" (Json.arr []) = Json.arr (c0 :: rest) →
      jIndexS c0 "id" = Except.ok v →
      (ensure_course resp url token cid title).1 = Except.ok v ∧
      (ensure_course resp url token cid title).2.1
        = [⟨"core_course_get_courses_by_field", lookupParamsOf cid⟩] ∧
      ((ensure_course resp url token cid title).2.1.countP
        (fun c => isCreateCall c)) = 0)
  ∧ (∀ (kvs : List (String × Json)) (d : Json) (ds : List Json) (v : Json),
      resp url "core_course_get_courses_by_field"
          (apiData token "core_course_get_courses_by_field" (lookupParamsOf cid))
        = Json.obj kvs →
      (Json.obj kvs).hasKey "exception" = false →
      (Json.obj kvs).getD "courses" (Json.arr []) = Json.arr [] →
      resp url "core_course_create_courses"
          (apiData token "core_course_create_courses" (courseCreateParams cid title))
        = Json.arr (d :: ds) →
      jIndexS d "id" = Except.ok v →
      (ensure_course resp url token cid title).1 = Except.ok v ∧
      (ensure_course resp url token cid title).2.1
        = [⟨"core_course_get_courses_by_field", lookupParamsOf cid⟩,
           ⟨"core_course_create_courses", courseCreateParams cid title⟩] ∧
      ((ensure_course resp url token cid title).2.1.countP
        (fun c => isCreateCall c)) = 1) := by
  constructor
  · intro kvs c0 rest v hresp hexc hcourses hid
    have : ensure_course resp url token cid title
        = (Except.ok v, [⟨"core_course_get_courses_by_field", lookupParamsOf cid⟩],
           ["  Course already exists (id=" ++ v.pyStr ++ "): " ++ title]) := by
      unfold ensure_course api
      rw [hresp]
      simp only [apiCheck, Json.isDict, hexc, Bool.and_false, Bool.false_eq_true,
        if_false, liftApi, pyGetD]
      have hc : (jlook kvs "courses").getD (Json.arr []) = Json.arr (c0 :: rest) := hcourses
      rw [hc]
      simp only [Json.pyTruthy, List.isEmpty_cons, Bool.not_false, if_true, jIndex0,
        bind, Except.bind, hid]
    rw [this]
    simp [isCreateCall]
  · intro kvs d ds v hresp hexc hcourses hcreate hid
    have : ensure_course resp url token cid title
        = (Except.ok v,
           [⟨"core_course_get_courses_by_field", lookupParamsOf cid⟩,
            ⟨"core_course_create_courses", courseCreateParams cid title⟩],
           ["  Created course (id=" ++ v.pyStr ++ "): " ++ title]) := by
      unfold ensure_course api
      rw [hresp]
      simp only [apiCheck, Json.isDict, hexc, Bool.and_false, Bool.false_eq_true,
        if_false, liftApi, pyGetD]
      have hc : (jlook kvs "courses").getD (Json.arr []) = Json.arr [] := hcourses
      rw [hc]
      simp only [Json.pyTruthy, List.isEmpty_nil, Bool.not_true, Bool.false_eq_true, if_false]
      rw [hcreate]
      simp only [apiCheck, Json.isDict, Bool.false_and, Bool.false_eq_true, if_false,
        liftApi, jIndex0, bind, Except.bind, hid]
    rw [this]
    simp [isCreateCall]

end MTAT

namespace MTAT

/-- Witness for C1: with a remote that already has course `c1` (id 5) no
creation call is issued and 5 is returned; with a remote that lacks it,
exactly one creation call is issued and its echoed id 9 is returned. -/
theorem c1_witness :
    (ensure_course
        (fun _ fn _ => if fn = "core_course_get_courses_by_field"
          then Json.obj [("courses", Json.arr [Json.obj [("id", Json.num 5)]])]
          else Json.null) "u" "t" "c1" "T").1 = Except.ok (Json.num 5)
  ∧ (ensure_course
        (fun _ fn _ => if fn = "core_course_get_courses_by_field"
          then Json.obj [("courses", Json.arr [Json.obj [("id", Json.num 5)]])]
          else Json.null) "u" "t" "c1" "T").2.1.countP (fun c => isCreateCall c) = 0
  ∧ (ensure_course
        (fun _ fn _ => if fn = "core_course_get_courses_by_field"
          then Json.obj [("courses", Json.arr [])]
          else Json.arr [Json.obj [("id", Json.num 9)]]) "u" "t" "c1" "T").1
      = Except.ok (Json.num 9)
  ∧ (ensure_course
        (fun _ fn _ => if fn = "core_course_get_courses_by_field"
          then Json.obj [("courses", Json.arr [])]
          else Json.arr [Json.obj [("id", Json.num 9)]]) "u" "t" "c1" "T").2.1.countP
        (fun c => isCreateCall c) = 1 := by
  have hA := (c1_ensure_course_idempotent
    (fun _ fn _ => if fn = "core_course_get_courses_by_field"
      then Json.obj [("courses", Json.arr [Json.obj [("id", Json.num 5)]])]
      else Json.null) "u" "t" "c1" "T").1
    [("courses", Json.arr [Json.obj [("id", Json.num 5)]])]
    (Json.obj [("id", Json.num 5)]) [] (Json.num 5) rfl rfl rfl rfl
  have hB := (c1_ensure_course_idempotent
    (fun _ fn _ => if fn = "core_course_get_courses_by_field"
      then Json.obj [("courses", Json.arr [])]
      else Json.arr [Json.obj [("id", Json.num 9)]]) "u" "t" "c1" "T").2
    [("courses", Json.arr [])]
    (Json.obj [("id", Json.num 9)]) [] (Json.num 9) rfl rfl rfl rfl rfl
  exact ⟨hA.1, hA.2.2, hB.1, hB.2.2⟩

end MTAT

namespace MTAT

/-! ### Grouping invariants (`group_by_course`) -/

theorem mem_addToModules (ms : List (String × List Entry)) (k : String) (e : Entry) :
    ∃ m ∈ addToModules ms k e, m.1 = k ∧ e ∈ m.2 := by
  unfold addToModules
  by_cases hc : ms.any (fun m => m.1 == k)
  · rw [if_pos hc]
    obtain ⟨q, hq, hq1⟩ := List.any_eq_true.mp hc
    rw [beq_iff_eq] at hq1
    refine ⟨(q.1, q.2 ++ [e]), ?_, by simpa using hq1, by simp⟩
    exact List.mem_map.mpr ⟨q, hq, by rw [if_pos hq1]⟩
  · rw [if_neg hc]
    exact ⟨(k, [e]), by simp, rfl, by simp⟩

theorem addToModules_preserves (ms : List (String × List Entry)) (k : String) (e' : Entry)
    (e : Entry) (h : ∃ m ∈ ms, e ∈ m.2) :
    ∃ m ∈ addToModules ms k e', e ∈ m.2 := by
  obtain ⟨m, hm, hme⟩ := h
  unfold addToModules
  by_cases hc : ms.any (fun m => m.1 == k)
  · rw [if_pos hc]
    by_cases hk : m.1 = k
    · exact ⟨(m.1, m.2 ++ [e']), List.mem_map.mpr ⟨m, hm, by rw [if_pos hk]⟩, by simp [hme]⟩
    · exact ⟨m, List.mem_map.mpr ⟨m, hm, by rw [if_neg hk]⟩, hme⟩
  · rw [if_neg hc]
    exact ⟨m, List.mem_append_left _ hm, hme⟩

theorem addEntry_title (acc : List (String × CourseGroup)) (e : Entry)
    (h : ∀ p ∈ acc, p.2.title = deriveCourseTitle p.1) :
    ∀ p ∈ addEntry acc e, p.2.title = deriveCourseTitle p.1 := by
  intro p hp
  simp only [addEntry] at hp
  rcases List.mem_map.mp hp with ⟨q, hq, rfl⟩
  have hqt : q.2.title = deriveCourseTitle q.1 := by
    by_cases hc : acc.any (fun kc => kc.1 == courseKeyOf e)
    · rw [if_pos hc] at hq
      exact h q hq
    · rw [if_neg hc] at hq
      rcases List.mem_append.mp hq with h1 | h1
      · exact h q h1
      · simp only [List.mem_singleton] at h1
        rw [h1]
  by_cases hq1 : q.1 = courseKeyOf e
  · rw [if_pos hq1]
    simpa using hqt
  · rw [if_neg hq1]
    exact hqt

end MTAT

namespace MTAT

theorem addEntry_adds (acc : List (String × CourseGroup)) (e : Entry) :
    ∃ g, (courseKeyOf e, g) ∈ addEntry acc e ∧ ∃ m ∈ g.modules, e ∈ m.2 := by
  simp only [addEntry]
  have hany : ((if (acc.any fun kc => kc.1 == courseKeyOf e) = true then acc
      else acc ++ [(courseKeyOf e, ⟨deriveCourseTitle (courseKeyOf e), []⟩)]).any
        fun kc => kc.1 == courseKeyOf e) = true := by
    by_cases hc : (acc.any fun kc => kc.1 == courseKeyOf e) = true
    · rw [if_pos hc]; exact hc
    · rw [if_neg hc]
      exact List.any_eq_true.mpr ⟨(courseKeyOf e, ⟨deriveCourseTitle (courseKeyOf e), []⟩),
        by simp, by simp⟩
  obtain ⟨q, hq, hq1⟩ := List.any_eq_true.mp hany
  rw [beq_iff_eq] at hq1
  refine ⟨⟨q.2.title, addToModules q.2.modules (moduleKeyOf e) e⟩, ?_, ?_⟩
  · refine List.mem_map.mpr ⟨q, hq, ?_⟩
    rw [if_pos hq1, hq1]
  · obtain ⟨m, hm, _, hme⟩ := mem_addToModules q.2.modules (moduleKeyOf e) e
    exact ⟨m, hm, hme⟩

theorem addEntry_preserves (acc : List (String × CourseGroup)) (e' : Entry)
    (k : String) (g : CourseGroup) (e : Entry)
    (hmem : (k, g) ∈ acc) (hin : ∃ m ∈ g.modules, e ∈ m.2) :
    ∃ g', (k, g') ∈ addEntry acc e' ∧ ∃ m ∈ g'.modules, e ∈ m.2 := by
  simp only [addEntry]
  have hmem' : (k, g) ∈ (if (acc.any fun kc => kc.1 == courseKeyOf e') = true then acc
      else acc ++ [(courseKeyOf e', ⟨deriveCourseTitle (courseKeyOf e'), []⟩)]) := by
    by_cases hc : (acc.any fun kc => kc.1 == courseKeyOf e') = true
    · rw [if_pos hc]; exact hmem
    · rw [if_neg hc]; exact List.mem_append_left _ hmem
  by_cases hk : k = courseKeyOf e'
  · refine ⟨⟨g.title, addToModules g.modules (moduleKeyOf e') e'⟩,
      List.mem_map.mpr ⟨(k, g), hmem', by simp [hk]⟩, ?_⟩
    exact addToModules_preserves g.modules (moduleKeyOf e') e' e hin
  · exact ⟨g, List.mem_map.mpr ⟨(k, g), hmem', by simp [hk]⟩, hin⟩

theorem foldl_addEntry_mem (entries : List Entry) :
    ∀ (acc : List (String × CourseGroup)) (e : Entry),
      (e ∈ entries ∨ ∃ g, (courseKeyOf e, g) ∈ acc ∧ ∃ m ∈ g.modules, e ∈ m.2) →
      ∃ g, (courseKeyOf e, g) ∈ entries.foldl addEntry acc ∧ ∃ m ∈ g.modules, e ∈ m.2 := by
  induction entries with
  | nil =>
    intro acc e h
    rcases h with h | h
    · exact absurd h (List.not_mem_nil e)
    · simpa using h
  | cons x xs ih =>
    intro acc e h
    rw [List.foldl_cons]
    rcases h with h | ⟨g, hg, hin⟩
    · rcases List.mem_cons.mp h with rfl | hxs
      · exact ih (addEntry acc e) e (Or.inr (addEntry_adds acc e))
      · exact ih (addEntry acc x) e (Or.inl hxs)
    · exact ih (addEntry acc x) e (Or.inr (addEntry_preserves acc x (courseKeyOf e) g e hg hin))

theorem foldl_addEntry_title (entries : List Entry) :
    ∀ acc : List (String × CourseGroup),
      (∀ p ∈ acc, p.2.title = deriveCourseTitle p.1) →
      ∀ p ∈ entries.foldl addEntry acc, p.2.title = deriveCourseTitle p.1 := by
  induction entries with
  | nil => intro acc h; simpa using h
  | cons x xs ih =>
    intro acc h
    rw [List.foldl_cons]
    exact ih (addEntry acc x) (addEntry_title acc x h)

/-- C9: every ledger entry lacking a course identifier is grouped under the
fallback sentinel course key `"mtat-preview"`, and every grouped course's
display label is the course key with `-` replaced by spaces, title-cased. -/
theorem c9_group_by_course_fallback_and_label (entries : List Entry) :
    (∀ p ∈ group_by_course entries, p.2.title = deriveCourseTitle p.1)
  ∧ (∀ e ∈ entries, e.course_id = none →
      ∃ g, (fallbackCourseKey, g) ∈ group_by_course entries ∧ ∃ m ∈ g.modules, e ∈ m.2) := by
  constructor
  · exact foldl_addEntry_title entries [] (by simp)
  · intro e he hnone
    have hkey : courseKeyOf e = fallbackCourseKey := by
      unfold courseKeyOf
      rw [hnone]
      rfl
    have := foldl_addEntry_mem entries [] e (Or.inl he)
    rw [hkey] at this
    exact this

/-- Witness for C9: a one-entry ledger without a course id groups under the
sentinel, whose label is `"Mtat Preview"` (dashes to spaces, title-cased). -/
theorem c9_witness :
    (("mtat-preview",
        CourseGroup.mk "Mtat Preview" [("m1", [Entry.mk none (some "m1") none none none "f.md"])]).2.title
      = deriveCourseTitle "mtat-preview")
  ∧ ∃ g, (fallbackCourseKey, g)
        ∈ group_by_course [Entry.mk none (some "m1") none none none "f.md"]
      ∧ ∃ m ∈ g.modules, Entry.mk none (some "m1") none none none "f.md" ∈ m.2 := by
  constructor
  · exact (c9_group_by_course_fallback_and_label
      [Entry.mk none (some "m1") none none none "f.md"]).1
      ("mtat-preview",
        CourseGroup.mk "Mtat Preview" [("m1", [Entry.mk none (some "m1") none none none "f.md"])])
      (by decide)
  · exact (c9_group_by_course_fallback_and_label
      [Entry.mk none (some "m1") none none none "f.md"]).2
      (Entry.mk none (some "m1") none none none "f.md") (by simp) rfl

end MTAT

namespace MTAT

/-! ### Per-variant upload loop lemmas -/

theorem uploadStep_foldl_countP (w : WebOracle) (fs : String → Option String)
    (md : String → String) (cid : Json) (mtitle mdir u pw : String)
    (pred : WebEvent → Bool)
    (hblock : ∀ t h : String, (create_page_resource w cid t h u pw).countP pred = 1) :
    ∀ (variants : List Entry) (acc : List WebEvent × List String),
      (variants.foldl (uploadStep w fs md cid mtitle mdir u pw) acc).1.countP pred
        = acc.1.countP pred
          + variants.countP (fun v => (fs (variantPath mdir v)).isSome) := by
  intro variants
  induction variants with
  | nil => intro acc; simp
  | cons v vs ih =>
    intro acc
    rw [List.foldl_cons]
    cases hfs : fs (variantPath mdir v) with
    | none =>
      have hstep : uploadStep w fs md cid mtitle mdir u pw acc v
          = (acc.1, acc.2 ++ [skipWarning (variantPath mdir v)]) := by
        simp [uploadStep, hfs]
      rw [hstep, ih]
      simp [List.countP_cons, hfs]
    | some raw =>
      have hstep : uploadStep w fs md cid mtitle mdir u pw acc v
          = (acc.1 ++ create_page_resource w cid (pageTitleOf mtitle v)
                (md (strip_front_matter raw)) u pw,
             acc.2 ++ ["    + Uploaded: " ++ pageTitleOf mtitle v]) := by
        simp [uploadStep, hfs]
      rw [hstep, ih]
      simp [List.countP_append, List.countP_cons, hfs,
        hblock (pageTitleOf mtitle v) (md (strip_front_matter raw))]
      omega

theorem uploadStep_foldl_titles (w : WebOracle) (fs : String → Option String)
    (md : String → String) (cid : Json) (mtitle mdir u pw : String) :
    ∀ (variants : List Entry) (acc : List WebEvent × List String),
      postedTitles (variants.foldl (uploadStep w fs md cid mtitle mdir u pw) acc).1
        = postedTitles acc.1
          ++ (variants.filter (fun v => (fs (variantPath mdir v)).isSome)).map
              (pageTitleOf mtitle) := by
  intro variants
  induction variants with
  | nil => intro acc; simp
  | cons v vs ih =>
    intro acc
    rw [List.foldl_cons]
    cases hfs : fs (variantPath mdir v) with
    | none =>
      have hstep : uploadStep w fs md cid mtitle mdir u pw acc v
          = (acc.1, acc.2 ++ [skipWarning (variantPath mdir v)]) := by
        simp [uploadStep, hfs]
      rw [hstep, ih]
      simp [List.filter_cons, hfs]
    | some raw =>
      have hstep : uploadStep w fs md cid mtitle mdir u pw acc v
          = (acc.1 ++ create_page_resource w cid (pageTitleOf mtitle v)
                (md (strip_front_matter raw)) u pw,
             acc.2 ++ ["    + Uploaded: " ++ pageTitleOf mtitle v]) := by
        simp [uploadStep, hfs]
      rw [hstep, ih]
      have hb : postedTitles (create_page_resource w cid (pageTitleOf mtitle v)
          (md (strip_front_matter raw)) u pw) = [pageTitleOf mtitle v] := rfl
      simp only [postedTitles, List.filterMap_append, hfs, List.filter_cons, Option.isSome_some,
        if_true, List.map_cons]
      rw [show (create_page_resource w cid (pageTitleOf mtitle v)
          (md (strip_front_matter raw)) u pw).filterMap (fun e =>
            match e with
            | WebEvent.postCreatePage _ _ t _ _ => some t
            | _ => none) = [pageTitleOf mtitle v] from hb]
      simp

theorem uploadStep_foldl_prints_mono (w : WebOracle) (fs : String → Option String)
    (md : String → String) (cid : Json) (mtitle mdir u pw : String) :
    ∀ (variants : List Entry) (acc : List WebEvent × List String) (s : String),
      s ∈ acc.2 → s ∈ (variants.foldl (uploadStep w fs md cid mtitle mdir u pw) acc).2 := by
  intro variants
  induction variants with
  | nil => intro acc s hs; simpa using hs
  | cons v vs ih =>
    intro acc s hs
    rw [List.foldl_cons]
    apply ih
    cases hfs : fs (variantPath mdir v) with
    | none => simp [uploadStep, hfs, hs]
    | some raw => simp [uploadStep, hfs, hs]

theorem uploadStep_foldl_warn (w : WebOracle) (fs : String → Option String)
    (md : String → String) (cid : Json) (mtitle mdir u pw : String) :
    ∀ (variants : List Entry) (acc : List WebEvent × List String) (v : Entry),
      v ∈ variants → fs (variantPath mdir v) = none →
      skipWarning (variantPath mdir v)
        ∈ (variants.foldl (uploadStep w fs md cid mtitle mdir u pw) acc).2 := by
  intro variants
  induction variants with
  | nil => intro acc v hv; exact absurd hv (List.not_mem_nil v)
  | cons x xs ih =>
    intro acc v hv hfs
    rw [List.foldl_cons]
    rcases List.mem_cons.mp hv with rfl | hxs
    · apply uploadStep_foldl_prints_mono
      simp [uploadStep, hfs]
    · exact ih _ v hxs hfs

end MTAT

namespace MTAT

/-- C2 counterexample: a module upload of two existing variant files opens
two fresh cookie sessions and performs the login sequence twice — not one
persistent session with a single login before the first creation call. -/
theorem c2_counterexample :
    ((upload_variants_to_book
        (WebOracle.mk "" (fun _ => "") (fun _ => none) (fun _ => none))
        (fun _ => some "body") (fun s => s) "http://localhost:8080" (Json.num 3) "M"
        [Entry.mk none (some "m") none (some "developer") none "a.md",
         Entry.mk none (some "m") none (some "executive") none "b.md"]
        "root" "admin" "pw").1.countP isNewSession ≠ 1)
  ∧ ((upload_variants_to_book
        (WebOracle.mk "" (fun _ => "") (fun _ => none) (fun _ => none))
        (fun _ => some "body") (fun s => s) "http://localhost:8080" (Json.num 3) "M"
        [Entry.mk none (some "m") none (some "developer") none "a.md",
         Entry.mk none (some "m") none (some "executive") none "b.md"]
        "root" "admin" "pw").1.countP isPostLogin ≠ 1) := by
  constructor
  · intro h
    have h2 : (upload_variants_to_book
        (WebOracle.mk "" (fun _ => "") (fun _ => none) (fun _ => none))
        (fun _ => some "body") (fun s => s) "http://localhost:8080" (Json.num 3) "M"
        [Entry.mk none (some "m") none (some "developer") none "a.md",
         Entry.mk none (some "m") none (some "executive") none "b.md"]
        "root" "admin" "pw").1.countP isNewSession = 2 := rfl
    rw [h2] at h
    exact absurd h (by omega)
  · intro h
    have h2 : (upload_variants_to_book
        (WebOracle.mk "" (fun _ => "") (fun _ => none) (fun _ => none))
        (fun _ => some "body") (fun s => s) "http://localhost:8080" (Json.num 3) "M"
        [Entry.mk none (some "m") none (some "developer") none "a.md",
         Entry.mk none (some "m") none (some "executive") none "b.md"]
        "root" "admin" "pw").1.countP isPostLogin = 2 := rfl
    rw [h2] at h
    exact absurd h (by omega)

/-- C2 (amended): the session client opens one fresh cookie-bearing session
per page creation rather than one per run: in a module upload, the numbers
of sessions opened, login sequences performed, and page-creation
submissions all equal the number of ledger entries whose variant file
exists. -/
theorem c2_session_per_page_creation (w : WebOracle) (fs : String → Option String)
    (md : String → String) (url : String) (mid : Json) (mtitle : String)
    (variants : List Entry) (mdir u pw : String) :
    (upload_variants_to_book w fs md url mid mtitle variants mdir u pw).1.countP isNewSession
      = variants.countP (fun v => (fs (variantPath mdir v)).isSome)
  ∧ (upload_variants_to_book w fs md url mid mtitle variants mdir u pw).1.countP isPostLogin
      = variants.countP (fun v => (fs (variantPath mdir v)).isSome)
  ∧ (upload_variants_to_book w fs md url mid mtitle variants mdir u pw).1.countP isPostCreatePage
      = variants.countP (fun v => (fs (variantPath mdir v)).isSome) := by
  refine ⟨?_, ?_, ?_⟩
  · unfold upload_variants_to_book
    rw [uploadStep_foldl_countP w fs md mid mtitle mdir u pw isNewSession (fun _ _ => rfl)]
    simp
  · unfold upload_variants_to_book
    rw [uploadStep_foldl_countP w fs md mid mtitle mdir u pw isPostLogin (fun _ _ => rfl)]
    simp
  · unfold upload_variants_to_book
    rw [uploadStep_foldl_countP w fs md mid mtitle mdir u pw isPostCreatePage (fun _ _ => rfl)]
    simp

end MTAT

namespace MTAT

/-! ### Main-run lemmas -/

theorem resolveToken_explicit (args : Args) (w : World)
    (ht : pyTruthyStrOpt args.token = true) (hs : args.setup_moodle = false) :
    resolveTokenStep args w = .ok (args.token, [], []) := by
  unfold resolveTokenStep
  simp [ht, hs]

theorem stepModule_crashed (args : Args) (w : World) (mid : Json) (st2 : RunSt)
    (mv : String × List Entry) : (stepModule args w mid st2 mv).crashed = st2.crashed := rfl

theorem foldl_stepModule_crashed (args : Args) (w : World) (mid : Json) :
    ∀ (modules : List (String × List Entry)) (st2 : RunSt),
      (modules.foldl (stepModule args w mid) st2).crashed = st2.crashed := by
  intro modules
  induction modules with
  | nil => intro st2; rfl
  | cons m ms ih =>
    intro st2
    rw [List.foldl_cons, ih, stepModule_crashed]

theorem stepModule_countP (p : Event → Bool) (hweb : ∀ e, p (Event.web e) = false)
    (args : Args) (w : World) (mid : Json) (st2 : RunSt) (mv : String × List Entry) :
    (stepModule args w mid st2 mv).events.countP p = st2.events.countP p := by
  unfold stepModule
  simp only [List.countP_append]
  have hz : ((upload_variants_to_book w.web w.fs w.md args.url mid
      (moduleTitleOf w mv.1 mv.2) mv.2 w.manifestDir args.user args.password).1.map
        Event.web).countP p = 0 := by
    apply List.countP_eq_zero.mpr
    intro e he
    rcases List.mem_map.mp he with ⟨x, _, rfl⟩
    simp [hweb]
  rw [hz]
  omega

theorem foldl_stepModule_countP (p : Event → Bool) (hweb : ∀ e, p (Event.web e) = false)
    (args : Args) (w : World) (mid : Json) :
    ∀ (modules : List (String × List Entry)) (st2 : RunSt),
      (modules.foldl (stepModule args w mid) st2).events.countP p
        = st2.events.countP p := by
  intro modules
  induction modules with
  | nil => intro st2; rfl
  | cons m ms ih =>
    intro st2
    rw [List.foldl_cons, ih, stepModule_countP p hweb]

theorem restMap_countP (p : Event → Bool)
    (hrest : ∀ url fn data, p (Event.rest url fn data) = false)
    (url token : String) (calls : List ApiCallRec) :
    (calls.map (fun c => Event.rest url c.wsfunction (apiData token c.wsfunction c.params))).countP
      p = 0 := by
  apply List.countP_eq_zero.mpr
  intro e he
  rcases List.mem_map.mp he with ⟨x, _, rfl⟩
  simp [hrest]

theorem stepCourse_countP (p : Event → Bool)
    (hrest : ∀ url fn data, p (Event.rest url fn data) = false)
    (hweb : ∀ e, p (Event.web e) = false)
    (args : Args) (w : World) (token : String) (st : RunSt) (kd : String × CourseGroup) :
    (stepCourse args w token st kd).events.countP p = st.events.countP p := by
  unfold stepCourse
  by_cases hc : st.crashed
  · rw [if_pos hc]
  · rw [if_neg hc]
    cases hec : (ensure_course w.resp args.url token kd.1 kd.2.title).1 with
    | error e =>
      simp only [hec]
      simp [List.countP_append, restMap_countP p hrest]
    | ok mid =>
      simp only [hec]
      rw [foldl_stepModule_countP p hweb]
      simp [List.countP_append, restMap_countP p hrest]

theorem foldl_stepCourse_countP (p : Event → Bool)
    (hrest : ∀ url fn data, p (Event.rest url fn data) = false)
    (hweb : ∀ e, p (Event.web e) = false)
    (args : Args) (w : World) (token : String) :
    ∀ (courses : List (String × CourseGroup)) (st : RunSt),
      (courses.foldl (stepCourse args w token) st).events.countP p
        = st.events.countP p := by
  intro courses
  induction courses with
  | nil => intro st; rfl
  | cons c cs ih =>
    intro st
    rw [List.foldl_cons, ih, stepCourse_countP p hrest hweb]

theorem stepCourse_ok_crashed (args : Args) (w : World) (token : String) (st : RunSt)
    (kd : String × CourseGroup) (h : st.crashed = false)
    (hok : ∃ j, (ensure_course w.resp args.url token kd.1 kd.2.title).1 = Except.ok j) :
    (stepCourse args w token st kd).crashed = false := by
  obtain ⟨j, hj⟩ := hok
  unfold stepCourse
  rw [if_neg (by rw [h]; exact Bool.false_ne_true)]
  simp only [hj]
  rw [foldl_stepModule_crashed]

theorem foldl_stepCourse_crashed (args : Args) (w : World) (token : String) :
    ∀ (courses : List (String × CourseGroup)) (st : RunSt),
      st.crashed = false →
      (∀ kd ∈ courses, ∃ j, (ensure_course w.resp args.url token kd.1 kd.2.title).1
        = Except.ok j) →
      (courses.foldl (stepCourse args w token) st).crashed = false := by
  intro courses
  induction courses with
  | nil => intro st h _; exact h
  | cons c cs ih =>
    intro st h hok
    rw [List.foldl_cons]
    exact ih _ (stepCourse_ok_crashed args w token st c h (hok c (by simp)))
      (fun kd hkd => hok kd (by simp [hkd]))

end MTAT

namespace MTAT

theorem main_run_countP (args : Args) (w : World) (p : Event → Bool)
    (hrest : ∀ url fn data, p (Event.rest url fn data) = false)
    (hweb : ∀ e, p (Event.web e) = false)
    (hresE : ∀ evs prs, resolveTokenStep args w = Except.error (evs, prs) →
      evs.countP p = 0)
    (hresO : ∀ t evs prs, resolveTokenStep args w = Except.ok (t, evs, prs) →
      evs.countP p = 0) :
    (main_run args w).events.countP p = 0 := by
  cases hres0 : resolveTokenStep args w with
  | error ep =>
    obtain ⟨evs, prs⟩ := ep
    unfold main_run
    rw [hres0]
    exact hresE evs prs hres0
  | ok t3 =>
    obtain ⟨t, evs, prs⟩ := t3
    have hev : evs.countP p = 0 := hresO t evs prs hres0
    have hval : (evs ++ [Event.rest args.url "core_webservice_get_site_info"
        (apiData (t.getD "") "core_webservice_get_site_info" [])]).countP p = 0 := by
      rw [List.countP_append, hev]
      simp [hrest]
    unfold main_run
    rw [hres0]
    dsimp only
    by_cases hg : args.get_token = true
    · rw [if_pos hg]
      exact hev
    · rw [if_neg hg]
      cases hapi : api w.resp args.url (t.getD "") "core_webservice_get_site_info" [] with
      | error e => exact hval
      | ok site =>
        dsimp only
        by_cases hd : site.isDict = true
        · rw [if_pos hd]
          cases hm : w.manifestData with
          | none => exact hval
          | some parsed =>
            dsimp only
            by_cases hemp : (parsed.getD []).isEmpty = true
            · rw [if_pos hemp]
              exact hval
            · rw [if_neg hemp]
              split
              · split
                · exact hval
                · split
                  · dsimp only
                    rw [foldl_stepCourse_countP p hrest hweb]
                    exact hval
                  · dsimp only
                    rw [foldl_stepCourse_countP p hrest hweb]
                    exact hval
              · split
                · exact hval
                · split
                  · dsimp only
                    rw [foldl_stepCourse_countP p hrest hweb]
                    exact hval
                  · dsimp only
                    rw [foldl_stepCourse_countP p hrest hweb]
                    exact hval
        · rw [if_neg hd]
          exact hval

/-- Under an explicit non-empty token the token-resolution step never reads
the cache file, whatever the setup flag, the cache contents, or the mint
outcome. -/
theorem main_run_truthy_no_cacheRead (args : Args) (w : World)
    (ht : pyTruthyStrOpt args.token = true) :
    (main_run args w).events.countP isCacheReadEvent = 0 := by
  apply main_run_countP args w isCacheReadEvent (fun _ _ _ => rfl) (fun _ => rfl)
  · intro evs prs heq
    unfold resolveTokenStep at heq
    simp only [ht, Bool.not_true, Bool.false_and, Bool.false_eq_true, if_false,
      Bool.false_or] at heq
    by_cases hsm : args.setup_moodle = true
    · rw [if_pos hsm] at heq
      cases hmint : w.mint with
      | error msg =>
        rw [hmint] at heq
        simp only [Except.error.injEq, Prod.mk.injEq] at heq
        rw [← heq.1]
        rfl
      | ok tok =>
        rw [hmint] at heq
        simp at heq
    · rw [if_neg hsm] at heq
      simp at heq
  · intro t evs prs heq
    unfold resolveTokenStep at heq
    simp only [ht, Bool.not_true, Bool.false_and, Bool.false_eq_true, if_false,
      Bool.false_or] at heq
    by_cases hsm : args.setup_moodle = true
    · rw [if_pos hsm] at heq
      cases hmint : w.mint with
      | error msg =>
        rw [hmint] at heq
        simp at heq
      | ok tok =>
        rw [hmint] at heq
        simp only [Except.ok.injEq, Prod.mk.injEq] at heq
        rw [← heq.2.1]
        rfl
    · rw [if_neg hsm] at heq
      simp only [Except.ok.injEq, Prod.mk.injEq] at heq
      rw [← heq.2.1]
      rfl

end MTAT

namespace MTAT

/-- C3 counterexample: an invocation that supplies an explicit non-empty
token but also passes `--setup-moodle` still performs a mint attempt
(readiness poll plus provisioning exec), so "no mint attempt occurs
regardless" fails as universally stated. -/
theorem c3_counterexample :
    pyTruthyStrOpt (Args.mk "u" (some "tok") "admin" "" none "variants/manifest.yaml"
      true true).token = true
  ∧ (main_run
      (Args.mk "u" (some "tok") "admin" "" none "variants/manifest.yaml" true true)
      (World.mk (fun _ _ _ => Json.null)
        (WebOracle.mk "" (fun _ => "") (fun _ => none) (fun _ => none))
        (fun _ => none) (fun s => s) none (Except.ok "MINT") none (fun _ => none)
        "")).events.countP isMintAttemptEvent ≠ 0 := by
  constructor
  · rfl
  · intro h
    have h2 : (main_run
        (Args.mk "u" (some "tok") "admin" "" none "variants/manifest.yaml" true true)
        (World.mk (fun _ _ _ => Json.null)
          (WebOracle.mk "" (fun _ => "") (fun _ => none) (fun _ => none))
          (fun _ => none) (fun s => s) none (Except.ok "MINT") none (fun _ => none)
          "")).events.countP isMintAttemptEvent = 2 := rfl
    rw [h2] at h
    exact absurd h (by omega)

/-- C3 (amended): whenever an explicit non-empty token is supplied, no
cache file read occurs — regardless of cache file contents and even when
the first-time-setup flag is set; and when additionally the setup flag is
not set, no mint attempt occurs either. -/
theorem c3_explicit_token_skips_cache_and_mint (args : Args) (w : World)
    (ht : pyTruthyStrOpt args.token = true) :
    (main_run args w).events.countP isCacheReadEvent = 0
  ∧ (args.setup_moodle = false →
      (main_run args w).events.countP isMintAttemptEvent = 0) := by
  constructor
  · exact main_run_truthy_no_cacheRead args w ht
  · intro hs
    apply main_run_countP args w isMintAttemptEvent (fun _ _ _ => rfl) (fun _ => rfl)
    · intro evs prs heq
      rw [resolveToken_explicit args w ht hs] at heq
      exact absurd heq (by simp)
    · intro t evs prs heq
      rw [resolveToken_explicit args w ht hs] at heq
      simp only [Except.ok.injEq, Prod.mk.injEq] at heq
      rw [← heq.2.1]
      rfl

/-- Witness for C3 (amended): with explicit token `"tok"` and a populated
cache file, no cache read occurs even when `--setup-moodle` is set; and
with the setup flag unset no mint attempt occurs either. -/
theorem c3_witness :
    (main_run
      (Args.mk "u" (some "tok") "admin" "" none "variants/manifest.yaml" true true)
      (World.mk (fun _ _ _ => Json.null)
        (WebOracle.mk "" (fun _ => "") (fun _ => none) (fun _ => none))
        (fun _ => none) (fun s => s) (some "cached-token") (Except.ok "MINT") none
        (fun _ => none) "")).events.countP isCacheReadEvent = 0
  ∧ (main_run
      (Args.mk "u" (some "tok") "admin" "" none "variants/manifest.yaml" false true)
      (World.mk (fun _ _ _ => Json.null)
        (WebOracle.mk "" (fun _ => "") (fun _ => none) (fun _ => none))
        (fun _ => none) (fun s => s) (some "cached-token") (Except.ok "MINT") none
        (fun _ => none) "")).events.countP isMintAttemptEvent = 0 :=
  ⟨(c3_explicit_token_skips_cache_and_mint
      (Args.mk "u" (some "tok") "admin" "" none "variants/manifest.yaml" true true)
      (World.mk (fun _ _ _ => Json.null)
        (WebOracle.mk "" (fun _ => "") (fun _ => none) (fun _ => none))
        (fun _ => none) (fun s => s) (some "cached-token") (Except.ok "MINT") none
        (fun _ => none) "") rfl).1,
   (c3_explicit_token_skips_cache_and_mint
      (Args.mk "u" (some "tok") "admin" "" none "variants/manifest.yaml" false true)
      (World.mk (fun _ _ _ => Json.null)
        (WebOracle.mk "" (fun _ => "") (fun _ => none) (fun _ => none))
        (fun _ => none) (fun s => s) (some "cached-token") (Except.ok "MINT") none
        (fun _ => none) "") rfl).2 rfl⟩

end MTAT

namespace MTAT

/-- C4: ledger loading distinguishes missing from empty.  With a valid
token (explicit, no setup flag) and a validating site response: a missing
ledger file exits 1 with the remediation guidance printed; a file parsing
to empty/null yields an empty sequence and the run exits 0 having issued no
network call beyond the single token-validation call. -/
theorem c4_ledger_missing_vs_empty (args : Args) (w : World)
    (hg : args.get_token = false)
    (ht : pyTruthyStrOpt args.token = true)
    (hs : args.setup_moodle = false)
    (hd : (w.resp args.url "core_webservice_get_site_info"
        (apiData (args.token.getD "") "core_webservice_get_site_info" [])).isDict = true)
    (hx : (w.resp args.url "core_webservice_get_site_info"
        (apiData (args.token.getD "") "core_webservice_get_site_info" [])).hasKey "exception"
      = false) :
    (w.manifestData = none →
      (main_run args w).exitCode = 1 ∧ (main_run args w).crashed = false ∧
      ∀ msg ∈ manifestGuidance args.manifest, msg ∈ (main_run args w).prints)
  ∧ (∀ parsed, w.manifestData = some parsed → parsed.getD [] = [] →
      (main_run args w).exitCode = 0 ∧ (main_run args w).crashed = false ∧
      (main_run args w).events
        = [Event.rest args.url "core_webservice_get_site_info"
            (apiData (args.token.getD "") "core_webservice_get_site_info" [])] ∧
      "Manifest is empty — nothing to upload." ∈ (main_run args w).prints) := by
  have happ : api w.resp args.url (args.token.getD "") "core_webservice_get_site_info" []
      = Except.ok (w.resp args.url "core_webservice_get_site_info"
          (apiData (args.token.getD "") "core_webservice_get_site_info" [])) := by
    unfold api apiCheck
    rw [hx]
    simp
  constructor
  · intro hm
    have hrun : main_run args w
        = ⟨1, false,
           [] ++ [Event.rest args.url "core_webservice_get_site_info"
              (apiData (args.token.getD "") "core_webservice_get_site_info" [])],
           [] ++ ["Connected to Moodle: "
              ++ ((w.resp args.url "core_webservice_get_site_info"
                  (apiData (args.token.getD "") "core_webservice_get_site_info" [])).getD
                    "sitename" Json.null).pyStr
              ++ " (Moodle "
              ++ ((w.resp args.url "core_webservice_get_site_info"
                  (apiData (args.token.getD "") "core_webservice_get_site_info" [])).getD
                    "release" (Json.str "?")).pyStr ++ ")"]
             ++ manifestGuidance args.manifest⟩ := by
      unfold main_run
      rw [resolveToken_explicit args w ht hs]
      dsimp only
      rw [if_neg (by simp [hg])]
      rw [happ]
      dsimp only
      rw [if_pos hd, hm]
    rw [hrun]
    refine ⟨rfl, rfl, ?_⟩
    intro msg hmsg
    simp [List.mem_append]
    exact Or.inr hmsg
  · intro parsed hm hempty
    have hrun : main_run args w
        = ⟨0, false,
           [] ++ [Event.rest args.url "core_webservice_get_site_info"
              (apiData (args.token.getD "") "core_webservice_get_site_info" [])],
           [] ++ ["Connected to Moodle: "
              ++ ((w.resp args.url "core_webservice_get_site_info"
                  (apiData (args.token.getD "") "core_webservice_get_site_info" [])).getD
                    "sitename" Json.null).pyStr
              ++ " (Moodle "
              ++ ((w.resp args.url "core_webservice_get_site_info"
                  (apiData (args.token.getD "") "core_webservice_get_site_info" [])).getD
                    "release" (Json.str "?")).pyStr ++ ")"]
             ++ ["Manifest is empty — nothing to upload."]⟩ := by
      unfold main_run
      rw [resolveToken_explicit args w ht hs]
      dsimp only
      rw [if_neg (by simp [hg])]
      rw [happ]
      dsimp only
      rw [if_pos hd, hm]
      dsimp only
      rw [if_pos (by rw [hempty]; rfl)]
    rw [hrun]
    refine ⟨rfl, rfl, by simp, by simp⟩

end MTAT

namespace MTAT

/-- Witness for C4: a concrete run with a missing ledger exits 1 printing
the guidance; a concrete run whose ledger parses to null exits 0 with
exactly the token-validation call as its network traffic. -/
theorem c4_witness :
    ((main_run
        (Args.mk "u" (some "tok") "admin" "" none "variants/manifest.yaml" false false)
        (World.mk (fun _ _ _ => Json.obj [("sitename", Json.str "S")])
          (WebOracle.mk "" (fun _ => "") (fun _ => none) (fun _ => none))
          (fun _ => none) (fun s => s) none (Except.ok "M") none (fun _ => none)
          "")).exitCode = 1
      ∧ "No manifest found at variants/manifest.yaml."
          ∈ (main_run
              (Args.mk "u" (some "tok") "admin" "" none "variants/manifest.yaml" false false)
              (World.mk (fun _ _ _ => Json.obj [("sitename", Json.str "S")])
                (WebOracle.mk "" (fun _ => "") (fun _ => none) (fun _ => none))
                (fun _ => none) (fun s => s) none (Except.ok "M") none (fun _ => none)
                "")).prints)
  ∧ ((main_run
        (Args.mk "u" (some "tok") "admin" "" none "variants/manifest.yaml" false false)
        (World.mk (fun _ _ _ => Json.obj [("sitename", Json.str "S")])
          (WebOracle.mk "" (fun _ => "") (fun _ => none) (fun _ => none))
          (fun _ => none) (fun s => s) none (Except.ok "M") (some none) (fun _ => none)
          "")).exitCode = 0
      ∧ (main_run
          (Args.mk "u" (some "tok") "admin" "" none "variants/manifest.yaml" false false)
          (World.mk (fun _ _ _ => Json.obj [("sitename", Json.str "S")])
            (WebOracle.mk "" (fun _ => "") (fun _ => none) (fun _ => none))
            (fun _ => none) (fun s => s) none (Except.ok "M") (some none) (fun _ => none)
            "")).events
        = [Event.rest "u" "core_webservice_get_site_info"
            (apiData "tok" "core_webservice_get_site_info" [])]) := by
  constructor
  · have h := (c4_ledger_missing_vs_empty
      (Args.mk "u" (some "tok") "admin" "" none "variants/manifest.yaml" false false)
      (World.mk (fun _ _ _ => Json.obj [("sitename", Json.str "S")])
        (WebOracle.mk "" (fun _ => "") (fun _ => none) (fun _ => none))
        (fun _ => none) (fun s => s) none (Except.ok "M") none (fun _ => none) "")
      rfl rfl rfl rfl rfl).1 rfl
    exact ⟨h.1, h.2.2 "No manifest found at variants/manifest.yaml."
      (by simp [manifestGuidance])⟩
  · have h := (c4_ledger_missing_vs_empty
      (Args.mk "u" (some "tok") "admin" "" none "variants/manifest.yaml" false false)
      (World.mk (fun _ _ _ => Json.obj [("sitename", Json.str "S")])
        (WebOracle.mk "" (fun _ => "") (fun _ => none) (fun _ => none))
        (fun _ => none) (fun s => s) none (Except.ok "M") (some none) (fun _ => none) "")
      rfl rfl rfl rfl rfl).2 none rfl rfl
    exact ⟨h.1, h.2.2.1⟩

end MTAT

namespace MTAT

/-- C5: a missing variant file is non-fatal.  In a module upload, every
entry whose file is absent is skipped with a warning print, the titles of
the pages actually created are exactly those of the entries whose files
exist, in ledger order; and a publish run (valid token, non-empty ledger,
all course reconciliations succeeding) exits with code 0. -/
theorem c5_missing_variant_nonfatal (args : Args) (w : World)
    (hg : args.get_token = false)
    (ht : pyTruthyStrOpt args.token = true)
    (hs : args.setup_moodle = false)
    (hd : (w.resp args.url "core_webservice_get_site_info"
        (apiData (args.token.getD "") "core_webservice_get_site_info" [])).isDict = true)
    (hx : (w.resp args.url "core_webservice_get_site_info"
        (apiData (args.token.getD "") "core_webservice_get_site_info" [])).hasKey "exception"
      = false)
    (entries : List Entry)
    (hm : w.manifestData = some (some entries))
    (hne : entries ≠ [])
    (hcid : args.course_id = none)
    (hok : ∀ kd ∈ group_by_course entries,
      ∃ j, (ensure_course w.resp args.url (args.token.getD "") kd.1 kd.2.title).1
        = Except.ok j) :
    ((main_run args w).exitCode = 0 ∧ (main_run args w).crashed = false)
  ∧ (∀ (wo : WebOracle) (fs : String → Option String) (md : String → String)
       (url : String) (mid : Json) (mtitle : String) (variants : List Entry)
       (mdir u pw : String),
      postedTitles (upload_variants_to_book wo fs md url mid mtitle variants mdir u pw).1
        = (variants.filter (fun v => (fs (variantPath mdir v)).isSome)).map
            (pageTitleOf mtitle)
      ∧ ∀ v ∈ variants, fs (variantPath mdir v) = none →
          skipWarning (variantPath mdir v)
            ∈ (upload_variants_to_book wo fs md url mid mtitle variants mdir u pw).2) := by
  have happ : api w.resp args.url (args.token.getD "") "core_webservice_get_site_info" []
      = Except.ok (w.resp args.url "core_webservice_get_site_info"
          (apiData (args.token.getD "") "core_webservice_get_site_info" [])) := by
    unfold api apiCheck
    rw [hx]
    simp
  constructor
  · unfold main_run
    rw [resolveToken_explicit args w ht hs]
    dsimp only
    rw [if_neg (by simp [hg])]
    rw [happ]
    dsimp only
    rw [if_pos hd, hm]
    dsimp only
    simp only [Option.getD_some]
    rw [if_neg (by simp [hne])]
    rw [hcid]
    simp only [pyTruthyStrOpt, Bool.false_and, Bool.false_eq_true, if_false]
    have hfold : ∀ (evs : List Event) (prs : List String),
        ((group_by_course entries).foldl (stepCourse args w (args.token.getD ""))
          ⟨evs, prs, false⟩).crashed = false :=
      fun evs prs => foldl_stepCourse_crashed args w (args.token.getD "")
        (group_by_course entries) ⟨evs, prs, false⟩ rfl hok
    rw [if_neg (by rw [hfold]; exact Bool.false_ne_true)]
    exact ⟨rfl, rfl⟩
  · intro wo fs md url mid mtitle variants mdir u pw
    constructor
    · unfold upload_variants_to_book
      dsimp only
      rw [uploadStep_foldl_titles wo fs md mid mtitle mdir u pw variants]
      rfl
    · intro v hv hfs
      unfold upload_variants_to_book
      dsimp only
      exact List.mem_append_left _
        (uploadStep_foldl_warn wo fs md mid mtitle mdir u pw variants _ v hv hfs)

end MTAT

namespace MTAT

/-- Witness for C5: ledger entries `a.md` (missing on disk) and `b.md`
(present); the run exits 0, exactly the existing variant's page is created,
and the missing one produces a skip warning. -/
theorem c5_witness :
    ((main_run
        (Args.mk "u" (some "tok") "admin" "" none "variants/manifest.yaml" false false)
        (World.mk
          (fun _ fn _ => if fn = "core_webservice_get_site_info"
            then Json.obj [("sitename", Json.str "S")]
            else if fn = "core_course_get_courses_by_field"
              then Json.obj [("courses", Json.arr [Json.obj [("id", Json.num 7)]])]
              else Json.null)
          (WebOracle.mk "" (fun _ => "") (fun _ => none) (fun _ => none))
          (fun p => if p = "root/b.md" then some "body" else none) (fun s => s)
          none (Except.ok "M")
          (some (some [Entry.mk none (some "m") none (some "developer") none "a.md",
                       Entry.mk none (some "m") none (some "executive") none "b.md"]))
          (fun _ => none) "root")).exitCode = 0)
  ∧ postedTitles (upload_variants_to_book
      (WebOracle.mk "" (fun _ => "") (fun _ => none) (fun _ => none))
      (fun p => if p = "root/b.md" then some "body" else none) (fun s => s)
      "u" (Json.num 7) "M"
      [Entry.mk none (some "m") none (some "developer") none "a.md",
       Entry.mk none (some "m") none (some "executive") none "b.md"]
      "root" "admin" "").1 = ["M [executive / en-US]"]
  ∧ skipWarning "root/a.md" ∈ (upload_variants_to_book
      (WebOracle.mk "" (fun _ => "") (fun _ => none) (fun _ => none))
      (fun p => if p = "root/b.md" then some "body" else none) (fun s => s)
      "u" (Json.num 7) "M"
      [Entry.mk none (some "m") none (some "developer") none "a.md",
       Entry.mk none (some "m") none (some "executive") none "b.md"]
      "root" "admin" "").2 := by
  have hok : ∀ kd ∈ group_by_course
      [Entry.mk none (some "m") none (some "developer") none "a.md",
       Entry.mk none (some "m") none (some "executive") none "b.md"],
      ∃ j, (ensure_course
        (fun _ fn _ => if fn = "core_webservice_get_site_info"
          then Json.obj [("sitename", Json.str "S")]
          else if fn = "core_course_get_courses_by_field"
            then Json.obj [("courses", Json.arr [Json.obj [("id", Json.num 7)]])]
            else Json.null)
        "u" ((some "tok" : Option String).getD "") kd.1 kd.2.title).1
          = Except.ok j := by
    intro kd hkd
    have hgr : group_by_course
        [Entry.mk none (some "m") none (some "developer") none "a.md",
         Entry.mk none (some "m") none (some "executive") none "b.md"]
        = [("mtat-preview", CourseGroup.mk "Mtat Preview"
            [("m", [Entry.mk none (some "m") none (some "developer") none "a.md",
                    Entry.mk none (some "m") none (some "executive") none "b.md"])])] := rfl
    rw [hgr] at hkd
    rw [List.mem_singleton] at hkd
    subst hkd
    exact ⟨Json.num 7, rfl⟩
  have h := c5_missing_variant_nonfatal
    (Args.mk "u" (some "tok") "admin" "" none "variants/manifest.yaml" false false)
    (World.mk
      (fun _ fn _ => if fn = "core_webservice_get_site_info"
        then Json.obj [("sitename", Json.str "S")]
        else if fn = "core_course_get_courses_by_field"
          then Json.obj [("courses", Json.arr [Json.obj [("id", Json.num 7)]])]
          else Json.null)
      (WebOracle.mk "" (fun _ => "") (fun _ => none) (fun _ => none))
      (fun p => if p = "root/b.md" then some "body" else none) (fun s => s)
      none (Except.ok "M")
      (some (some [Entry.mk none (some "m") none (some "developer") none "a.md",
                   Entry.mk none (some "m") none (some "executive") none "b.md"]))
      (fun _ => none) "root")
    rfl rfl rfl rfl rfl
    [Entry.mk none (some "m") none (some "developer") none "a.md",
     Entry.mk none (some "m") none (some "executive") none "b.md"]
    rfl (by simp) rfl hok
  refine ⟨h.1.1, ?_, ?_⟩
  · have h2 := (h.2 (WebOracle.mk "" (fun _ => "") (fun _ => none) (fun _ => none))
      (fun p => if p = "root/b.md" then some "body" else none) (fun s => s)
      "u" (Json.num 7) "M"
      [Entry.mk none (some "m") none (some "developer") none "a.md",
       Entry.mk none (some "m") none (some "executive") none "b.md"]
      "root" "admin" "").1
    rw [h2]
    rfl
  · exact (h.2 (WebOracle.mk "" (fun _ => "") (fun _ => none) (fun _ => none))
      (fun p => if p = "root/b.md" then some "body" else none) (fun s => s)
      "u" (Json.num 7) "M"
      [Entry.mk none (some "m") none (some "developer") none "a.md",
       Entry.mk none (some "m") none (some "executive") none "b.md"]
      "root" "admin" "").2
      (Entry.mk none (some "m") none (some "developer") none "a.md") (by simp) rfl

end MTAT
